import Mathlib

/-!
# ParticleZoo phase-space I/O engine: a shallow embedding

The repository ships Python bindings, example drivers and build scripts for
a multi-format phase-space I/O engine whose implementation lives in a
native extension module.  This file embeds the engine's data model and
operations as executable Lean definitions, modelled from the design
specification, and proves the specification's testable properties about
them.
-/

namespace ParticleZoo

/-- Modelled from the spec: the closed species enumeration of the Particle
Record ("discrete species tag (one of a closed enumeration; bidirectionally
mappable to/from a standard numeric particle-physics identifier code)").
The native enumeration is in the missing extension module `_pz`; this is a
representative closed subset of it. -/
inductive ParticleType where
  | Electron
  | Positron
  | Photon
  | Neutron
  | Proton
  deriving DecidableEq, Repr, Fintype

/-- Modelled from the spec: the total direction of the particle-type/PDG
mapping — "every internal species maps to exactly one code" (missing
extension symbol `get_pdgid`). -/
def get_pdgid : ParticleType → Int
  | .Electron => 11
  | .Positron => -11
  | .Photon => 22
  | .Neutron => 2112
  | .Proton => 2212

/-- Modelled from the spec: the partial direction of the particle-type/PDG
mapping — "unknown codes fail lookup rather than defaulting" (missing
extension symbol `get_particle_type_from_pdgid`). -/
def get_particle_type_from_pdgid (c : Int) : Option ParticleType :=
  if c = 11 then some .Electron
  else if c = -11 then some .Positron
  else if c = 22 then some .Photon
  else if c = 2112 then some .Neutron
  else if c = 2212 then some .Proton
  else none

/-- Modelled from the spec: "Optional auxiliary integer/float/bool
properties, keyed by a small closed set of property-type tags".  The closed
tag set carried here is the EGS LATCH word and the five PENELOPE ILB
slots. -/
structure IntProps where
  latch : Option Nat
  ilb1 : Option Int
  ilb2 : Option Int
  ilb3 : Option Int
  ilb4 : Option Int
  ilb5 : Option Int
  deriving DecidableEq, Repr

/-- The empty auxiliary property set. -/
def noProps : IntProps := ⟨none, none, none, none, none, none⟩

/-- Modelled from the spec: the canonical in-memory Particle Record
(missing extension class `Particle`).  Real-valued fields use `ℚ` in the
embedding. -/
structure Particle where
  type : ParticleType
  kineticEnergy : ℚ
  x : ℚ
  y : ℚ
  z : ℚ
  px : ℚ
  py : ℚ
  pz : ℚ
  weight : ℚ
  isNewHistory : Bool
  props : IntProps
  deriving DecidableEq, Repr

/-- Modelled from the spec: the constituent flags multiplexed into the EGS
LATCH word — "a region-history flag, several boolean 'has crossed boundary
N' flags, and particle-type/charge info" (the native layout is in the
missing extension module). -/
structure LatchFlags where
  regionHistory : Bool
  crossed1 : Bool
  crossed2 : Bool
  crossed3 : Bool
  crossed4 : Bool
  charge : Nat
  deriving DecidableEq, Repr

/-- A legal flag combination: the charge field fits its two-bit slot. -/
def LegalLatch (f : LatchFlags) : Prop := f.charge < 4

instance (f : LatchFlags) : Decidable (LegalLatch f) := by
  unfold LegalLatch; infer_instance

/-- Modelled from the spec: packing the constituent flags into one LATCH
word.  Bit 0 is the region-history flag, bits 1–4 the boundary-crossing
flags, bits 29–30 the charge field (536870912 = 2^29). -/
def latch_encode (f : LatchFlags) : Nat :=
  (bif f.regionHistory then 1 else 0)
    + 2 * (bif f.crossed1 then 1 else 0)
    + 4 * (bif f.crossed2 then 1 else 0)
    + 8 * (bif f.crossed3 then 1 else 0)
    + 16 * (bif f.crossed4 then 1 else 0)
    + 536870912 * f.charge

/-- Modelled from the spec: unpacking a raw LATCH word.  Total on every bit
pattern — "decoding a raw file-supplied word must not raise for any bit
pattern". -/
def latch_decode (w : Nat) : LatchFlags :=
  { regionHistory := w % 2 == 1
    crossed1 := w / 2 % 2 == 1
    crossed2 := w / 4 % 2 == 1
    crossed3 := w / 8 % 2 == 1
    crossed4 := w / 16 % 2 == 1
    charge := w / 536870912 % 4 }

/-- Modelled from the spec: storing a LATCH word on a particle as an
auxiliary integer property (missing extension symbol
`apply_latch_to_particle`). -/
def apply_latch_to_particle (p : Particle) (w : Nat) : Particle :=
  { p with props := { p.props with latch := some w } }

/-- Modelled from the spec: reading the LATCH word back from a particle
(missing extension symbol `extract_latch_from_particle`). -/
def extract_latch_from_particle (p : Particle) : Option Nat :=
  p.props.latch

/-- Modelled from the spec: set PENELOPE ILB slot 1 on a particle (missing
extension symbol `apply_ilb1_to_particle`). -/
def apply_ilb1_to_particle (p : Particle) (v : Int) : Particle :=
  { p with props := { p.props with ilb1 := some v } }

/-- Modelled from the spec: set PENELOPE ILB slot 2 on a particle (missing
extension symbol `apply_ilb2_to_particle`). -/
def apply_ilb2_to_particle (p : Particle) (v : Int) : Particle :=
  { p with props := { p.props with ilb2 := some v } }

/-- Modelled from the spec: set PENELOPE ILB slot 3 on a particle (missing
extension symbol `apply_ilb3_to_particle`). -/
def apply_ilb3_to_particle (p : Particle) (v : Int) : Particle :=
  { p with props := { p.props with ilb3 := some v } }

/-- Modelled from the spec: set PENELOPE ILB slot 4 on a particle (missing
extension symbol `apply_ilb4_to_particle`). -/
def apply_ilb4_to_particle (p : Particle) (v : Int) : Particle :=
  { p with props := { p.props with ilb4 := some v } }

/-- Modelled from the spec: set PENELOPE ILB slot 5 on a particle (missing
extension symbol `apply_ilb5_to_particle`). -/
def apply_ilb5_to_particle (p : Particle) (v : Int) : Particle :=
  { p with props := { p.props with ilb5 := some v } }

/-- Modelled from the spec: read PENELOPE ILB slot 1 from a particle
(missing extension symbol `extract_ilb1_from_particle`). -/
def extract_ilb1_from_particle (p : Particle) : Option Int := p.props.ilb1

/-- Modelled from the spec: read PENELOPE ILB slot 2 from a particle
(missing extension symbol `extract_ilb2_from_particle`). -/
def extract_ilb2_from_particle (p : Particle) : Option Int := p.props.ilb2

/-- Modelled from the spec: read PENELOPE ILB slot 3 from a particle
(missing extension symbol `extract_ilb3_from_particle`). -/
def extract_ilb3_from_particle (p : Particle) : Option Int := p.props.ilb3

/-- Modelled from the spec: read PENELOPE ILB slot 4 from a particle
(missing extension symbol `extract_ilb4_from_particle`). -/
def extract_ilb4_from_particle (p : Particle) : Option Int := p.props.ilb4

/-- Modelled from the spec: read PENELOPE ILB slot 5 from a particle
(missing extension symbol `extract_ilb5_from_particle`). -/
def extract_ilb5_from_particle (p : Particle) : Option Int := p.props.ilb5

/-- Indexed view of the five ILB slot writers, for stating the per-slot
round-trip uniformly. -/
def apply_ilb_slot : Fin 5 → Particle → Int → Particle
  | ⟨0, _⟩ => apply_ilb1_to_particle
  | ⟨1, _⟩ => apply_ilb2_to_particle
  | ⟨2, _⟩ => apply_ilb3_to_particle
  | ⟨3, _⟩ => apply_ilb4_to_particle
  | ⟨4, _⟩ => apply_ilb5_to_particle

/-- Indexed view of the five ILB slot readers. -/
def extract_ilb_slot : Fin 5 → Particle → Option Int
  | ⟨0, _⟩ => extract_ilb1_from_particle
  | ⟨1, _⟩ => extract_ilb2_from_particle
  | ⟨2, _⟩ => extract_ilb3_from_particle
  | ⟨3, _⟩ => extract_ilb4_from_particle
  | ⟨4, _⟩ => extract_ilb5_from_particle

/-- Modelled from the spec: the error taxonomy of §7 (the native exception
classes are in the missing extension module). -/
inductive PZError where
  | UnknownFormat
  | MalformedHeader
  | DecodeError
  | CapacityExceeded
  | InvalidConfiguration
  | ClosedHandleMisuse
  deriving DecidableEq, Repr

instance instDecEqExcept {ε α : Type} [DecidableEq ε] [DecidableEq α] :
    DecidableEq (Except ε α) := fun x y =>
  match x, y with
  | .ok a, .ok b =>
    if h : a = b then .isTrue (by rw [h]) else .isFalse (by simp [h])
  | .error e, .error f =>
    if h : e = f then .isTrue (by rw [h]) else .isFalse (by simp [h])
  | .ok _, .error _ => .isFalse (by simp)
  | .error _, .ok _ => .isFalse (by simp)

/-- Modelled from the spec: the immutable Format Descriptor
`{name, canonical file extension, human-readable description}` (missing
extension class `SupportedFormat`). -/
structure SupportedFormat where
  name : String
  fileExtension : String
  description : String
  deriving DecidableEq, Repr

/-- The IAEA format descriptor. -/
def iaeaFormat : SupportedFormat :=
  ⟨"IAEA", ".IAEAphsp", "IAEA phase space file"⟩

/-- The EGS format descriptor. -/
def egsFormat : SupportedFormat :=
  ⟨"EGS", ".egsphsp", "EGSnrc phase space file"⟩

/-- The TOPAS format descriptor. -/
def topasFormat : SupportedFormat :=
  ⟨"TOPAS", ".phsp", "TOPAS phase space file"⟩

/-- The penEasy format descriptor. -/
def penEasyFormat : SupportedFormat :=
  ⟨"penEasy", ".psf", "penEasy phase space file"⟩

/-- The ROOT-backed format descriptor. -/
def rootFormat : SupportedFormat :=
  ⟨"ROOT", ".root", "ROOT tree phase space file"⟩

/-- Modelled from the spec: the Format Registry's descriptor table in its
stable registration order (missing extension class `FormatRegistry`,
method `supported_formats`). -/
def supported_formats : List SupportedFormat :=
  [iaeaFormat, egsFormat, topasFormat, penEasyFormat, rootFormat]

/-- The characters after the last dot of a character list, `none` when no
dot occurs. -/
def extCharsAfterDot : List Char → Option (List Char)
  | [] => none
  | c :: cs =>
    match extCharsAfterDot cs with
    | some e => some e
    | none => if c = '.' then some cs else none

/-- The file extension of a path: everything from the last dot on; empty
when the path has no dot. -/
def extensionOf (path : String) : String :=
  match extCharsAfterDot path.data with
  | some e => String.mk ('.' :: e)
  | none => ""

/-- Case-insensitive string equality (ASCII case folding), as used by
extension matching. -/
def eqIgnoreCase (a b : String) : Bool :=
  a.data.map Char.toLower == b.data.map Char.toLower

/-- Modelled from the spec: exact-name lookup of an explicitly requested
format, "failing with an 'unknown format' error if absent". -/
def lookup_format_by_name (registry : List SupportedFormat) (n : String) :
    Except PZError SupportedFormat :=
  match registry.find? (fun f => f.name == n) with
  | some f => .ok f
  | none => .error .UnknownFormat

/-- Modelled from the spec: match the file's extension "(case-insensitive)
against each registered Descriptor's extension", first registered
match winning. -/
def find_format_by_extension (registry : List SupportedFormat)
    (path : String) : Option SupportedFormat :=
  registry.find? (fun f => eqIgnoreCase f.fileExtension (extensionOf path))

/-- Modelled from the spec: the format-resolution algorithm of §4.1
(missing extension symbols `create_reader` / `create_reader_for_format`).
`explicitFormat` is the optional explicit format name; `sniffed` stands
for the outcome of content-based header sniffing, consulted only when no
extension matches. -/
def resolve_format (registry : List SupportedFormat) (path : String)
    (explicitFormat : Option String) (sniffed : Option SupportedFormat) :
    Except PZError SupportedFormat :=
  match explicitFormat with
  | some n => lookup_format_by_name registry n
  | none =>
    match find_format_by_extension registry path with
    | some f => .ok f
    | none =>
      match sniffed with
      | some f => .ok f
      | none => .error .UnknownFormat

/-- Modelled from the spec: "Each codec owns its own definition of 'new
history' detection (some formats use a dedicated flag bit, others a sign
convention on a field)". -/
inductive HistoryMark where
  | flagBit
  | signOfEnergy
  deriving DecidableEq, Repr

/-- Modelled from the spec: one Format Codec — its descriptor, its static
capacity ceiling (`maximum_supported_particles`, "some binary layouts use
fixed-width counters") and its new-history detection convention.  The
byte-level protocols are in the missing extension module. -/
structure Codec where
  descriptor : SupportedFormat
  maxParticles : Nat
  marker : HistoryMark
  deriving DecidableEq, Repr

/-- The IAEA codec: sign-convention history marking, 64-bit record
counter. -/
def iaeaCodec : Codec := ⟨iaeaFormat, 2 ^ 63 - 1, .signOfEnergy⟩

/-- The EGS codec: flag-bit history marking, 32-bit record counter. -/
def egsCodec : Codec := ⟨egsFormat, 2 ^ 31 - 1, .flagBit⟩

/-- The TOPAS codec. -/
def topasCodec : Codec := ⟨topasFormat, 2 ^ 63 - 1, .flagBit⟩

/-- The penEasy codec. -/
def penEasyCodec : Codec := ⟨penEasyFormat, 2 ^ 63 - 1, .flagBit⟩

/-- The ROOT-backed codec. -/
def rootCodec : Codec := ⟨rootFormat, 2 ^ 63 - 1, .flagBit⟩

/-- The five registered codecs, in registration order. -/
def allCodecs : List Codec :=
  [iaeaCodec, egsCodec, topasCodec, penEasyCodec, rootCodec]

/-- Modelled from the spec: the Fixed Values declaration — "stores the
constant value and a per-field boolean flag" for a named subset of the
particle fields (missing extension class `FixedValues`). -/
structure FixedValues where
  xIsConstant : Bool
  constantX : ℚ
  yIsConstant : Bool
  constantY : ℚ
  zIsConstant : Bool
  constantZ : ℚ
  deriving DecidableEq, Repr

/-- The default Fixed Values declaration: nothing is constant. -/
def noFixedValues : FixedValues := ⟨false, 0, false, 0, false, 0⟩

/-- Modelled from the spec: one encoded on-disk particle record.  Fields a
Fixed-Values declaration makes constant are omitted (`none`); the
new-history mark is carried either in the dedicated flag or in the sign of
the energy field, per the codec's convention. -/
structure EncodedRecord where
  typeCode : Int
  energyField : ℚ
  xField : Option ℚ
  yField : Option ℚ
  zField : Option ℚ
  pxField : ℚ
  pyField : ℚ
  pzField : ℚ
  weightField : ℚ
  newHistoryFlag : Bool
  auxProps : IntProps
  deriving DecidableEq, Repr

/-- Modelled from the spec: the parsed header snapshot — per-file Fixed
Values constants and the final particle/history counts. -/
structure Header where
  fixed : FixedValues
  particleCount : Nat
  historyCount : Nat
  deriving DecidableEq, Repr

/-- A whole phase-space file: header plus the sequence of encoded
records. -/
structure PhspFile where
  header : Header
  records : List EncodedRecord
  deriving DecidableEq, Repr

/-- Modelled from the spec: encode one Particle Record into the on-disk
record for a given codec and Fixed-Values declaration. -/
def encode_particle (c : Codec) (fv : FixedValues) (p : Particle) :
    EncodedRecord :=
  { typeCode := get_pdgid p.type
    energyField :=
      match c.marker with
      | .flagBit => p.kineticEnergy
      | .signOfEnergy =>
        if p.isNewHistory then -p.kineticEnergy else p.kineticEnergy
    xField := if fv.xIsConstant then none else some p.x
    yField := if fv.yIsConstant then none else some p.y
    zField := if fv.zIsConstant then none else some p.z
    pxField := p.px
    pyField := p.py
    pzField := p.pz
    weightField := p.weight
    newHistoryFlag := p.isNewHistory
    auxProps := p.props }

/-- Modelled from the spec: decode one on-disk record back into a Particle
Record; an unknown species code is a `DecodeError` (the engine "never
fabricates a replacement record").  Fixed fields are restored from the
header's constants. -/
def decode_particle (c : Codec) (hdr : Header) (r : EncodedRecord) :
    Except PZError Particle :=
  match get_particle_type_from_pdgid r.typeCode with
  | none => .error .DecodeError
  | some t =>
    .ok
      { type := t
        kineticEnergy :=
          match c.marker with
          | .flagBit => r.energyField
          | .signOfEnergy => |r.energyField|
        x := if hdr.fixed.xIsConstant then hdr.fixed.constantX else r.xField.getD 0
        y := if hdr.fixed.yIsConstant then hdr.fixed.constantY else r.yField.getD 0
        z := if hdr.fixed.zIsConstant then hdr.fixed.constantZ else r.zField.getD 0
        px := r.pxField
        py := r.pyField
        pz := r.pzField
        weight := r.weightField
        isNewHistory :=
          match c.marker with
          | .flagBit => r.newHistoryFlag
          | .signOfEnergy => decide (r.energyField < 0)
        props := r.auxProps }

/-- Modelled from the spec: the Writer session state (missing extension
class `PhaseSpaceFileWriter`): open flag, records emitted so far, and the
particles/histories written counters. -/
structure WriterState where
  codec : Codec
  fixed : FixedValues
  isOpen : Bool
  records : List EncodedRecord
  particlesWritten : Nat
  historiesWritten : Nat
  deriving DecidableEq, Repr

/-- A freshly opened writer. -/
def init_writer (c : Codec) (fv : FixedValues) : WriterState :=
  ⟨c, fv, true, [], 0, 0⟩

/-- Modelled from the spec: the writer accessor
`get_maximum_supported_particles`. -/
def get_maximum_supported_particles (w : WriterState) : Nat :=
  w.codec.maxParticles

/-- Modelled from the spec: `write_particle` — fails with
`ClosedHandleMisuse` on a closed writer and with `CapacityExceeded` once
the ceiling would be exceeded, "before corrupting the file"; otherwise
encodes one record and updates the written/history counters (the history
counter increments when the particle is new-history or is the first
particle written). -/
def write_particle (w : WriterState) (p : Particle) :
    Except PZError WriterState :=
  if w.isOpen = false then .error .ClosedHandleMisuse
  else if w.codec.maxParticles ≤ w.particlesWritten then
    .error .CapacityExceeded
  else
    .ok
      { w with
        records := w.records ++ [encode_particle w.codec w.fixed p]
        particlesWritten := w.particlesWritten + 1
        historiesWritten :=
          w.historiesWritten +
            (if p.isNewHistory || w.particlesWritten == 0 then 1 else 0) }

/-- Modelled from the spec: writer `close()` — finalizes the session and
releases the resource without resetting the session counters. -/
def writer_close (w : WriterState) : WriterState :=
  { w with isOpen := false }

/-- Modelled from the spec: the writer accessor `get_particles_written`;
callable in every state. -/
def get_particles_written (w : WriterState) : Nat := w.particlesWritten

/-- Modelled from the spec: the writer accessor `get_histories_written`;
callable in every state. -/
def get_histories_written (w : WriterState) : Nat := w.historiesWritten

/-- The file a writer session has produced: header (Fixed Values and final
counts, patched at close) plus the emitted records. -/
def finalize_file (w : WriterState) : PhspFile :=
  ⟨⟨w.fixed, w.particlesWritten, w.historiesWritten⟩, w.records⟩

/-- Write a whole list of particles, stopping at the first error. -/
def write_all (w : WriterState) : List Particle → Except PZError WriterState
  | [] => .ok w
  | p :: ps =>
    match write_particle w p with
    | .error e => .error e
    | .ok w' => write_all w' ps

/-- Modelled from the spec: the Reader session state (missing extension
class `PhaseSpaceFileReader`): open flag, the undecoded remainder of the
stream, and the particles/histories read counters. -/
structure ReaderState where
  codec : Codec
  header : Header
  isOpen : Bool
  remaining : List EncodedRecord
  particlesRead : Nat
  historiesRead : Nat
  deriving DecidableEq, Repr

/-- A freshly opened reader over a file. -/
def open_reader (c : Codec) (f : PhspFile) : ReaderState :=
  ⟨c, f.header, true, f.records, 0, 0⟩

/-- The outcome of one successful `next()` call. -/
inductive ReadResult where
  | particle (p : Particle)
  | endOfStream
  deriving DecidableEq, Repr

/-- Modelled from the spec: reader `next()` — on a closed reader fails
with `ClosedHandleMisuse`; past the end it is a repeatable
`EndOfStream` no-op; otherwise it decodes exactly one record, advances the
cursor and updates the read/history counters ("increments the history
counter when the decoded record is itself new-history or is the first
record ever read"). -/
def reader_next (s : ReaderState) :
    Except PZError (ReadResult × ReaderState) :=
  if s.isOpen = false then .error .ClosedHandleMisuse
  else
    match s.remaining with
    | [] => .ok (.endOfStream, s)
    | r :: rest =>
      match decode_particle s.codec s.header r with
      | .error e => .error e
      | .ok p =>
        .ok
          (.particle p,
            { s with
              remaining := rest
              particlesRead := s.particlesRead + 1
              historiesRead :=
                s.historiesRead +
                  (if p.isNewHistory || s.particlesRead == 0 then 1 else 0) })

/-- Modelled from the spec: reader `close()` — idempotent, never an
error. -/
def reader_close (s : ReaderState) : Except PZError ReaderState :=
  .ok { s with isOpen := false }

/-- Drive `reader_next` with explicit fuel, collecting the particles
produced until the stream ends or a call fails. -/
def drain_fuel : Nat → ReaderState → List Particle →
    List Particle × ReaderState
  | 0, s, acc => (acc.reverse, s)
  | n + 1, s, acc =>
    match reader_next s with
    | .ok (.particle p, s') => drain_fuel n s' (p :: acc)
    | _ => (acc.reverse, s)

/-- Consume a reader's whole stream, returning the particles read and the
final reader state. -/
def drain (s : ReaderState) : List Particle × ReaderState :=
  drain_fuel s.remaining.length s []

/-- The number of history increments a stream of particles causes when
consumption starts with `k` particles already read: a particle counts when
it is flagged new-history or is the very first of the whole stream. -/
def hist_delta : Nat → List Particle → Nat
  | _, [] => 0
  | k, p :: ps =>
    (if p.isNewHistory || k == 0 then 1 else 0) + hist_delta (k + 1) ps

/-- A concrete particle used in witnesses. -/
def sampleParticle : Particle :=
  ⟨.Electron, 1, 0, 0, 0, 0, 0, 1, 1, true, noProps⟩

/-- The PDG table round-trips on every supported species. -/
theorem pdg_roundtrip (t : ParticleType) :
    get_particle_type_from_pdgid (get_pdgid t) = some t := by
  cases t <;> rfl

/-- C6: the particle-type/PDG mapping is total from the internal species
enumeration to PDG codes, partial in the reverse direction (a code
corresponding to no species fails lookup rather than defaulting), and the
two maps are mutually inverse on the supported set. -/
theorem c6_pdg_mapping :
    (∀ t : ParticleType, get_particle_type_from_pdgid (get_pdgid t) = some t) ∧
    (∀ (c : Int) (t : ParticleType),
      get_particle_type_from_pdgid c = some t → get_pdgid t = c) ∧
    (∀ c : Int, (∀ t : ParticleType, get_pdgid t ≠ c) →
      get_particle_type_from_pdgid c = none) := by
  refine ⟨pdg_roundtrip, ?_, ?_⟩
  · intro c t h
    unfold get_particle_type_from_pdgid at h
    split_ifs at h with h1 h2 h3 h4 h5 <;> simp_all [get_pdgid] <;>
      (subst h; rfl)
  · intro c h
    unfold get_particle_type_from_pdgid
    split_ifs with h1 h2 h3 h4 h5
    · exact absurd h1.symm (h .Electron)
    · exact absurd h2.symm (h .Positron)
    · exact absurd h3.symm (h .Photon)
    · exact absurd h4.symm (h .Neutron)
    · exact absurd h5.symm (h .Proton)
    · rfl

/-- Witness for C6 at concrete inputs: code 11 is the electron both ways,
and code 12 (no species carries it) fails lookup. -/
theorem c6_pdg_mapping_witness :
    get_particle_type_from_pdgid 11 = some ParticleType.Electron ∧
    get_pdgid ParticleType.Electron = 11 ∧
    get_particle_type_from_pdgid 12 = none :=
  ⟨by decide, c6_pdg_mapping.2.1 11 ParticleType.Electron (by decide),
    c6_pdg_mapping.2.2 12 (by decide)⟩

/-- C2: the EGS LATCH encode/decode pair is a bijection on the legal flag
combinations — decoding an encoded word reproduces every constituent flag;
the LATCH word applied to a particle is extracted back intact; and decoding
an arbitrary raw word is total (never raises) on all 2^32 bit patterns,
always yielding legal flags. -/
theorem c2_latch_bijection :
    (∀ f : LatchFlags, LegalLatch f → latch_decode (latch_encode f) = f) ∧
    (∀ (p : Particle) (f : LatchFlags),
      extract_latch_from_particle
          (apply_latch_to_particle p (latch_encode f)) =
        some (latch_encode f)) ∧
    (∀ w : Nat, w < 2 ^ 32 → LegalLatch (latch_decode w)) := by
  refine ⟨?_, fun p f => rfl, ?_⟩
  · rintro ⟨r, b1, b2, b3, b4, q⟩ hq
    simp only [LegalLatch] at hq
    cases r <;> cases b1 <;> cases b2 <;> cases b3 <;> cases b4 <;>
      (simp only [latch_encode, latch_decode, cond_true, cond_false,
        LatchFlags.mk.injEq, beq_iff_eq, beq_eq_false_iff_ne, ne_eq]
       omega)
  · intro w hw
    simp only [LegalLatch, latch_decode]
    omega

/-- Witness for C2 at a concrete legal flag combination and raw word. -/
theorem c2_latch_bijection_witness :
    LegalLatch ⟨true, false, true, false, false, 2⟩ ∧
    latch_decode (latch_encode ⟨true, false, true, false, false, 2⟩) =
      ⟨true, false, true, false, false, 2⟩ ∧
    (3000000000 : Nat) < 2 ^ 32 ∧ LegalLatch (latch_decode 3000000000) :=
  ⟨by decide, c2_latch_bijection.1 _ (by decide), by decide,
    c2_latch_bijection.2.2 3000000000 (by decide)⟩

/-- C3: each of the five PENELOPE ILB slots round-trips independently —
applying a slot value and extracting the same slot returns it, and
applying one slot leaves every other slot untouched. -/
theorem c3_ilb_roundtrip (i j : Fin 5) (p : Particle) (v : Int) :
    extract_ilb_slot i (apply_ilb_slot i p v) = some v ∧
    (i ≠ j →
      extract_ilb_slot j (apply_ilb_slot i p v) = extract_ilb_slot j p) := by
  refine ⟨?_, ?_⟩
  · fin_cases i <;> rfl
  · intro hij
    fin_cases i <;> fin_cases j <;>
      first
        | exact absurd rfl hij
        | rfl

/-- Witness for C3: slot 1 round-trips on a concrete particle and leaves
slot 2 untouched. -/
theorem c3_ilb_roundtrip_witness :
    extract_ilb_slot 0 (apply_ilb_slot 0 sampleParticle 7) = some 7 ∧
    extract_ilb_slot 1 (apply_ilb_slot 0 sampleParticle 7) =
      extract_ilb_slot 1 sampleParticle :=
  ⟨(c3_ilb_roundtrip 0 1 sampleParticle 7).1,
    (c3_ilb_roundtrip 0 1 sampleParticle 7).2 (by decide)⟩

/-- C4: format resolution — an explicit format name is looked up by exact
name ignoring the extension and fails with `UnknownFormat` when absent;
otherwise the extension is matched case-insensitively (a path ending in
".IAEAphsp", in any letter case, selects the IAEA codec with no explicit
format); content sniffing is consulted only when no extension matches; and
an ambiguous extension match resolves to the first-registered format. -/
theorem c4_format_resolution :
    (∀ (registry : List SupportedFormat) (path n : String)
        (sniffed : Option SupportedFormat),
      resolve_format registry path (some n) sniffed =
        lookup_format_by_name registry n) ∧
    (∀ (registry : List SupportedFormat) (n : String),
      (∀ f ∈ registry, f.name ≠ n) →
      lookup_format_by_name registry n = .error .UnknownFormat) ∧
    (resolve_format supported_formats "foo.IAEAphsp" none none =
      .ok iaeaFormat) ∧
    (resolve_format supported_formats "foo.iaeaphsp" none none =
      .ok iaeaFormat) ∧
    (resolve_format supported_formats "bar.IAEAphsp" (some "EGS") none =
      .ok egsFormat) ∧
    (∀ (registry : List SupportedFormat) (path : String)
        (f : SupportedFormat) (sniffed : Option SupportedFormat),
      find_format_by_extension registry path = some f →
      resolve_format registry path none sniffed = .ok f) ∧
    (∀ (registry : List SupportedFormat) (path : String)
        (g : SupportedFormat),
      find_format_by_extension registry path = none →
      resolve_format registry path none (some g) = .ok g ∧
      resolve_format registry path none none = .error .UnknownFormat) ∧
    (∀ (f₁ : SupportedFormat) (rest : List SupportedFormat) (path : String)
        (sniffed : Option SupportedFormat),
      eqIgnoreCase f₁.fileExtension (extensionOf path) = true →
      resolve_format (f₁ :: rest) path none sniffed = .ok f₁) := by
  refine ⟨fun _ _ _ _ => rfl, ?_, ?_, ?_, by rfl, ?_, ?_, ?_⟩
  · intro registry n h
    have hfind : registry.find? (fun f => f.name == n) = none :=
      List.find?_eq_none.mpr (fun f hf => by simp [h f hf])
    simp [lookup_format_by_name, hfind]
  · have hfind : find_format_by_extension supported_formats "foo.IAEAphsp" =
        some iaeaFormat := by decide
    simp [resolve_format, hfind]
  · have hfind : find_format_by_extension supported_formats "foo.iaeaphsp" =
        some iaeaFormat := by decide
    simp [resolve_format, hfind]
  · intro registry path f sniffed h
    simp [resolve_format, h]
  · intro registry path g h
    constructor <;> simp [resolve_format, h]
  · intro f₁ rest path sniffed h
    have hfind : find_format_by_extension (f₁ :: rest) path = some f₁ := by
      unfold find_format_by_extension
      exact List.find?_cons_of_pos _ h
    simp [resolve_format, hfind]

/-- Witness for C4 at concrete inputs: an absent explicit name fails with
`UnknownFormat`; an extension match suppresses sniffing; a duplicated
extension resolves to the first registration. -/
theorem c4_format_resolution_witness :
    resolve_format supported_formats "a.b" (some "IAEA") none =
      lookup_format_by_name supported_formats "IAEA" ∧
    lookup_format_by_name [] "nope" = .error .UnknownFormat ∧
    resolve_format supported_formats "x.egsphsp" none (some rootFormat) =
      .ok egsFormat ∧
    resolve_format [egsFormat, ⟨"EGS2", ".egsphsp", "clone"⟩] "x.egsphsp"
        none (some rootFormat) =
      .ok egsFormat :=
  ⟨c4_format_resolution.1 supported_formats "a.b" "IAEA" none,
    c4_format_resolution.2.1 [] "nope" (by simp),
    c4_format_resolution.2.2.2.2.2.1 supported_formats "x.egsphsp" egsFormat
      (some rootFormat) (by decide),
    c4_format_resolution.2.2.2.2.2.2.2 egsFormat [⟨"EGS2", ".egsphsp", "clone"⟩]
      "x.egsphsp" (some rootFormat) (by decide)⟩

/-- C7: once the particles-written counter has reached the format's
`maximum_supported_particles` ceiling, the next `write_particle` on an
open writer fails with `CapacityExceeded` and produces no new state (so no
bytes of the offending record reach the file and the prior output is
intact), and no successful write ever takes the counter past the
ceiling. -/
theorem c7_capacity :
    (∀ (w : WriterState) (p : Particle),
      w.isOpen = true →
      w.particlesWritten = get_maximum_supported_particles w →
      write_particle w p = .error .CapacityExceeded) ∧
    (∀ (w w' : WriterState) (p : Particle),
      write_particle w p = .ok w' →
      w'.particlesWritten ≤ get_maximum_supported_particles w ∧
      w'.records = w.records ++ [encode_particle w.codec w.fixed p]) := by
  constructor
  · intro w p hopen hfull
    unfold write_particle
    rw [hopen]
    simp [hfull, get_maximum_supported_particles]
  · intro w w' p h
    unfold write_particle at h
    split_ifs at h with h1 h2 h3 <;>
      first
        | exact Except.noConfusion h
        | (injection h with h'
           subst h'
           refine ⟨?_, rfl⟩
           simp only [get_maximum_supported_particles]
           omega)

/-- A writer sitting exactly at the EGS 32-bit capacity ceiling, used as
concrete input for C7. -/
def fullWriter : WriterState :=
  ⟨egsCodec, noFixedValues, true, [], 2147483647, 1⟩

/-- Witness for C7: the full EGS writer rejects the next particle with
`CapacityExceeded`. -/
theorem c7_capacity_witness :
    fullWriter.isOpen = true ∧
    fullWriter.particlesWritten = get_maximum_supported_particles fullWriter ∧
    write_particle fullWriter sampleParticle = .error .CapacityExceeded :=
  ⟨rfl, by decide,
    c7_capacity.1 fullWriter sampleParticle rfl (by decide)⟩

/-- C8: reader `close()` is idempotent — closing an already-closed reader
succeeds and the reader stays closed — while `next()` on any closed
reader (in particular one closed after partial consumption) fails with
`ClosedHandleMisuse`. -/
theorem c8_close_idempotent (s s' : ReaderState)
    (h : reader_close s = .ok s') :
    reader_close s' = .ok s' ∧ s'.isOpen = false ∧
    reader_next s' = .error .ClosedHandleMisuse := by
  have hs' : s' = { s with isOpen := false } := by
    injection h with h'
    exact h'.symm
  subst hs'
  refine ⟨rfl, rfl, ?_⟩
  simp [reader_next]

/-- A partially consumed reader (one particle already read), used as
concrete input for C8. -/
def partialReader : ReaderState :=
  ⟨egsCodec, ⟨noFixedValues, 2, 1⟩, true,
    [encode_particle egsCodec noFixedValues sampleParticle], 1, 1⟩

/-- Witness for C8 on the partially consumed reader. -/
theorem c8_close_idempotent_witness :
    reader_close { partialReader with isOpen := false } =
      .ok { partialReader with isOpen := false } ∧
    ({ partialReader with isOpen := false } : ReaderState).isOpen = false ∧
    reader_next { partialReader with isOpen := false } =
      .error .ClosedHandleMisuse :=
  c8_close_idempotent partialReader { partialReader with isOpen := false } rfl

/-- C10: writer `close()` leaves the session counters intact — the
`get_particles_written` and `get_histories_written` accessors stay callable
(they are total) and return the totals accumulated before the close. -/
theorem c10_counters_after_close (w : WriterState) :
    get_particles_written (writer_close w) = get_particles_written w ∧
    get_histories_written (writer_close w) = get_histories_written w :=
  ⟨rfl, rfl⟩

/-- The particle a reader reconstructs from the encoded image of `p`:
fields a Fixed-Values declaration made constant come back as the header
constants, and under the sign-of-energy convention the energy and
new-history flag come back through the sign of the stored field. -/
def readback (c : Codec) (fv : FixedValues) (p : Particle) : Particle :=
  { type := p.type
    kineticEnergy :=
      match c.marker with
      | .flagBit => p.kineticEnergy
      | .signOfEnergy =>
        |if p.isNewHistory then -p.kineticEnergy else p.kineticEnergy|
    x := if fv.xIsConstant then fv.constantX else p.x
    y := if fv.yIsConstant then fv.constantY else p.y
    z := if fv.zIsConstant then fv.constantZ else p.z
    px := p.px
    py := p.py
    pz := p.pz
    weight := p.weight
    isNewHistory :=
      match c.marker with
      | .flagBit => p.isNewHistory
      | .signOfEnergy =>
        decide
          ((if p.isNewHistory then -p.kineticEnergy else p.kineticEnergy) < 0)
    props := p.props }

/-- Decoding the encoded image of a particle always succeeds, yielding its
`readback`. -/
theorem decode_encode_general (c : Codec) (hdr : Header) (fv : FixedValues)
    (p : Particle) (hf : hdr.fixed = fv) :
    decode_particle c hdr (encode_particle c fv p) = .ok (readback c fv p) := by
  subst hf
  obtain ⟨d, mx, mk⟩ := c
  obtain ⟨⟨fx, cx, fy, cy, fz, cz⟩, n, hcnt⟩ := hdr
  cases mk <;> cases fx <;> cases fy <;> cases fz <;>
    simp [decode_particle, encode_particle, readback, pdg_roundtrip]

/-- With nothing fixed and a positive kinetic energy, the readback is the
particle itself: both new-history conventions are faithful. -/
theorem readback_no_fixed (c : Codec) (p : Particle)
    (hke : 0 < p.kineticEnergy) :
    readback c noFixedValues p = p := by
  obtain ⟨d, mx, mk⟩ := c
  obtain ⟨t, ke, x, y, z, px, py, pz, wt, nh, pr⟩ := p
  cases mk <;> cases nh <;>
    first
      | rfl
      | simp [readback, noFixedValues, abs_of_pos hke, abs_of_neg,
          neg_lt_zero, hke, not_lt_of_gt hke, le_of_lt hke]

/-- Writing a list of particles into an open writer with enough remaining
capacity succeeds and appends exactly the encoded records, advancing the
particle and history counters as the stream dictates. -/
theorem write_all_spec (ps : List Particle) :
    ∀ w : WriterState, w.isOpen = true →
      w.particlesWritten + ps.length ≤ w.codec.maxParticles →
      ∃ w', write_all w ps = .ok w' ∧
        w'.codec = w.codec ∧ w'.fixed = w.fixed ∧ w'.isOpen = true ∧
        w'.records = w.records ++ ps.map (encode_particle w.codec w.fixed) ∧
        w'.particlesWritten = w.particlesWritten + ps.length ∧
        w'.historiesWritten =
          w.historiesWritten + hist_delta w.particlesWritten ps := by
  induction ps with
  | nil =>
    intro w hopen _
    exact ⟨w, rfl, rfl, rfl, hopen, by simp, by simp, by simp [hist_delta]⟩
  | cons p ps ih =>
    intro w hopen hcap
    have hlt : w.particlesWritten < w.codec.maxParticles := by
      simp only [List.length_cons] at hcap
      omega
    have hw : write_particle w p =
        .ok
          { w with
            records := w.records ++ [encode_particle w.codec w.fixed p]
            particlesWritten := w.particlesWritten + 1
            historiesWritten :=
              w.historiesWritten +
                (if p.isNewHistory || w.particlesWritten == 0 then 1
                 else 0) } := by
      unfold write_particle
      rw [hopen]
      simp [Nat.not_le.mpr hlt]
    obtain ⟨w', h1, h2, h3, h4, h5, h6, h7⟩ :=
      ih
        { w with
          records := w.records ++ [encode_particle w.codec w.fixed p]
          particlesWritten := w.particlesWritten + 1
          historiesWritten :=
            w.historiesWritten +
              (if p.isNewHistory || w.particlesWritten == 0 then 1 else 0) }
        hopen (by simp only [List.length_cons] at hcap; simp; omega)
    refine ⟨w', ?_, by simpa using h2, by simpa using h3, h4, ?_, ?_, ?_⟩
    · simp only [write_all, hw]
      exact h1
    · rw [h5]
      simp
    · rw [h6]
      simp only [List.length_cons]
      omega
    · rw [h7]
      simp only [hist_delta]
      omega

/-- Draining a freshly positioned open reader whose remaining records all
decode collects exactly the decoded particles and accumulates the
new-history-or-first increments onto the history counter. -/
theorem drain_fuel_spec (c : Codec) (hdr : Header) :
    ∀ (rs : List EncodedRecord) (qs : List Particle),
      List.Forall₂ (fun r q => decode_particle c hdr r = .ok q) rs qs →
      ∀ (k h : Nat) (acc : List Particle),
        drain_fuel rs.length ⟨c, hdr, true, rs, k, h⟩ acc =
          (acc.reverse ++ qs,
            ⟨c, hdr, true, [], k + rs.length, h + hist_delta k qs⟩) := by
  intro rs qs hfa
  induction hfa with
  | nil =>
    intro k h acc
    simp [drain_fuel, hist_delta]
  | cons h₁ h₂ ih =>
    rename_i r q rs' qs'
    intro k h acc
    have hnext : reader_next ⟨c, hdr, true, r :: rs', k, h⟩ =
        .ok
          (.particle q,
            ⟨c, hdr, true, rs', k + 1,
              h + (if q.isNewHistory || k == 0 then 1 else 0)⟩) := by
      simp [reader_next, h₁]
    simp only [List.length_cons, drain_fuel, hnext]
    rw [ih]
    simp only [Prod.mk.injEq, ReaderState.mk.injEq, List.reverse_cons,
      List.append_assoc, List.cons_append, List.nil_append, hist_delta,
      true_and, and_true]
    exact ⟨by omega, Nat.add_assoc _ _ _⟩

/-- C1: for every supported format, writing a sequence of physically valid
particles (positive kinetic energy, within the format's capacity) and
re-reading the resulting file yields exactly the same particles — types,
weights and `isNewHistory` flags included — and the same history count. -/
theorem c1_roundtrip (c : Codec) (ps : List Particle)
    (_hc : c ∈ allCodecs)
    (hke : ∀ p ∈ ps, 0 < p.kineticEnergy)
    (hcap : ps.length ≤ c.maxParticles) :
    ∃ w', write_all (init_writer c noFixedValues) ps = .ok w' ∧
      (drain (open_reader c (finalize_file w'))).1 = ps ∧
      ((drain (open_reader c (finalize_file w'))).2).historiesRead =
        get_histories_written w' ∧
      get_particles_written w' = ps.length := by
  obtain ⟨w', h1, h2, h3, h4, h5, h6, h7⟩ :=
    write_all_spec ps (init_writer c noFixedValues) rfl
      (by simpa [init_writer] using hcap)
  simp only [init_writer, List.nil_append, Nat.zero_add] at h2 h3 h5 h6 h7
  have hdrfix : (finalize_file w').header.fixed = noFixedValues := by
    simp [finalize_file, h3]
  have hfa : List.Forall₂
      (fun r q => decode_particle c (finalize_file w').header r = .ok q)
      (ps.map (encode_particle c noFixedValues)) ps := by
    rw [List.forall₂_map_left_iff]
    refine List.forall₂_same.mpr (fun p hp => ?_)
    rw [decode_encode_general c _ noFixedValues p hdrfix,
      readback_no_fixed c p (hke p hp)]
  have hopenr : open_reader c (finalize_file w') =
      ⟨c, (finalize_file w').header, true,
        ps.map (encode_particle c noFixedValues), 0, 0⟩ := by
    simp [open_reader, finalize_file, h5]
  have hdrain : drain (open_reader c (finalize_file w')) =
      (ps,
        ⟨c, (finalize_file w').header, true, [], ps.length,
          hist_delta 0 ps⟩) := by
    rw [hopenr]
    show drain_fuel (ps.map (encode_particle c noFixedValues)).length
        ⟨c, (finalize_file w').header, true,
          ps.map (encode_particle c noFixedValues), 0, 0⟩ [] = _
    rw [drain_fuel_spec c (finalize_file w').header
      (ps.map (encode_particle c noFixedValues)) ps hfa 0 0 []]
    simp
  refine ⟨w', h1, ?_, ?_, ?_⟩
  · rw [hdrain]
  · rw [hdrain]
    simp [get_histories_written, h7]
  · simp [get_particles_written, h6]

/-- Concrete mixed particles for the C1 witness. -/
def c1SampleParticles : List Particle :=
  [⟨.Electron, 1, 0, 0, 0, 0, 0, 1, 1, true, noProps⟩,
    ⟨.Photon, 2, 3, -1, 0, 0, 0, 1, 1 / 2, false, noProps⟩]

/-- Witness for C1: two mixed particles round-trip through the IAEA
codec. -/
theorem c1_roundtrip_witness :
    iaeaCodec ∈ allCodecs ∧
    (∀ p ∈ c1SampleParticles, 0 < p.kineticEnergy) ∧
    c1SampleParticles.length ≤ iaeaCodec.maxParticles ∧
    ∃ w',
      write_all (init_writer iaeaCodec noFixedValues) c1SampleParticles =
        .ok w' ∧
      (drain (open_reader iaeaCodec (finalize_file w'))).1 =
        c1SampleParticles ∧
      ((drain (open_reader iaeaCodec (finalize_file w'))).2).historiesRead =
        get_histories_written w' ∧
      get_particles_written w' = c1SampleParticles.length :=
  ⟨by decide, by decide, by decide,
    c1_roundtrip iaeaCodec c1SampleParticles (by decide) (by decide)
      (by decide)⟩

/-- The particles of the C5 example stream: `isNewHistory` is true exactly
on indices 0, 3 and 7. -/
def sampleStreamParticle (i : Nat) : Particle :=
  ⟨.Electron, 1, 0, 0, 0, 0, 0, 1, 1, i == 0 || i == 3 || i == 7, noProps⟩

/-- The C5 example file: ten encoded particles, new-history flags on
records 0, 3 and 7. -/
def sampleFile10 : PhspFile :=
  ⟨⟨noFixedValues, 10, 3⟩,
    (List.range 10).map fun i =>
      encode_particle egsCodec noFixedValues (sampleStreamParticle i)⟩

/-- C5: each successful `next()` decodes exactly one record and increments
the history counter exactly when the decoded record is new-history or is
the first record ever read; consuming a fully decodable stream accumulates
`hist_delta 0` of the decoded particles; and on the ten-particle stream
flagged at 0, 3 and 7 the reported history count is 3. -/
theorem c5_history_counting :
    (∀ (s : ReaderState) (r : EncodedRecord) (rest : List EncodedRecord)
        (p : Particle),
      s.isOpen = true → s.remaining = r :: rest →
      decode_particle s.codec s.header r = .ok p →
      reader_next s =
        .ok (.particle p,
          { s with
            remaining := rest
            particlesRead := s.particlesRead + 1
            historiesRead :=
              s.historiesRead +
                (if p.isNewHistory || s.particlesRead == 0 then 1
                 else 0) })) ∧
    (∀ (c : Codec) (hdr : Header) (rs : List EncodedRecord)
        (qs : List Particle),
      List.Forall₂ (fun r q => decode_particle c hdr r = .ok q) rs qs →
      ((drain (open_reader c ⟨hdr, rs⟩)).2).historiesRead =
        hist_delta 0 qs) ∧
    ((drain (open_reader egsCodec sampleFile10)).2).historiesRead = 3 := by
  refine ⟨?_, ?_, by decide⟩
  · intro s r rest p h1 h2 h3
    unfold reader_next
    rw [h1, h2]
    simp [h3]
  · intro c hdr rs qs hfa
    rw [show open_reader c ⟨hdr, rs⟩ = ⟨c, hdr, true, rs, 0, 0⟩ from rfl]
    show (drain_fuel rs.length ⟨c, hdr, true, rs, 0, 0⟩ []).2.historiesRead =
      hist_delta 0 qs
    rw [drain_fuel_spec c hdr rs qs hfa 0 0 []]
    simp

/-- The single encoded record of the C5 witness. -/
def c5WitnessRecord : EncodedRecord :=
  encode_particle egsCodec noFixedValues sampleParticle

/-- Witness for C5: one `next()` on a one-record stream returns the
decoded particle with both counters advanced, and draining that stream
accumulates `hist_delta`. -/
theorem c5_history_counting_witness :
    reader_next
        ⟨egsCodec, ⟨noFixedValues, 1, 1⟩, true, [c5WitnessRecord], 0, 0⟩ =
      .ok (.particle sampleParticle,
        ⟨egsCodec, ⟨noFixedValues, 1, 1⟩, true, [], 1, 1⟩) ∧
    ((drain (open_reader egsCodec
        ⟨⟨noFixedValues, 1, 1⟩, [c5WitnessRecord]⟩)).2).historiesRead =
      hist_delta 0 [sampleParticle] :=
  ⟨c5_history_counting.1
      ⟨egsCodec, ⟨noFixedValues, 1, 1⟩, true, [c5WitnessRecord], 0, 0⟩
      c5WitnessRecord [] sampleParticle rfl rfl (by rfl),
    c5_history_counting.2.1 egsCodec ⟨noFixedValues, 1, 1⟩
      [c5WitnessRecord] [sampleParticle]
      (List.Forall₂.cons (by rfl) List.Forall₂.nil)⟩

/-- The Fixed-Values declaration of C9: `z` constant at 0. -/
def zFixedValues : FixedValues := ⟨false, 0, false, 0, true, 0⟩

/-- C9: declaring `z` fixed at 0 and writing particles whose `z` is 0
produces a file whose header records the constant (flag set, constant 0,
matching every written particle), and every particle read back from that
file reports `z = 0`. -/
theorem c9_fixed_z (c : Codec) (ps : List Particle)
    (_hc : c ∈ allCodecs)
    (hz : ∀ p ∈ ps, p.z = 0)
    (hcap : ps.length ≤ c.maxParticles) :
    ∃ w', write_all (init_writer c zFixedValues) ps = .ok w' ∧
      (finalize_file w').header.fixed.zIsConstant = true ∧
      (finalize_file w').header.fixed.constantZ = 0 ∧
      (∀ p ∈ ps, p.z = (finalize_file w').header.fixed.constantZ) ∧
      ∀ q ∈ (drain (open_reader c (finalize_file w'))).1, q.z = 0 := by
  obtain ⟨w', h1, h2, h3, h4, h5, h6, h7⟩ :=
    write_all_spec ps (init_writer c zFixedValues) rfl
      (by simpa [init_writer] using hcap)
  simp only [init_writer, List.nil_append, Nat.zero_add] at h2 h3 h5 h6 h7
  have hdrfix : (finalize_file w').header.fixed = zFixedValues := by
    simp [finalize_file, h3]
  have hfa : List.Forall₂
      (fun r q => decode_particle c (finalize_file w').header r = .ok q)
      (ps.map (encode_particle c zFixedValues))
      (ps.map (readback c zFixedValues)) := by
    rw [List.forall₂_map_left_iff, List.forall₂_map_right_iff]
    exact List.forall₂_same.mpr
      (fun p hp => decode_encode_general c _ zFixedValues p hdrfix)
  have hopenr : open_reader c (finalize_file w') =
      ⟨c, (finalize_file w').header, true,
        ps.map (encode_particle c zFixedValues), 0, 0⟩ := by
    simp [open_reader, finalize_file, h5]
  have hdrain : (drain (open_reader c (finalize_file w'))).1 =
      ps.map (readback c zFixedValues) := by
    rw [hopenr]
    show (drain_fuel (ps.map (encode_particle c zFixedValues)).length
        ⟨c, (finalize_file w').header, true,
          ps.map (encode_particle c zFixedValues), 0, 0⟩ []).1 = _
    rw [drain_fuel_spec c (finalize_file w').header
      (ps.map (encode_particle c zFixedValues))
      (ps.map (readback c zFixedValues)) hfa 0 0 []]
    simp
  refine ⟨w', h1, by simp [hdrfix, zFixedValues],
    by simp [hdrfix, zFixedValues], ?_, ?_⟩
  · intro p hp
    rw [hdrfix]
    simpa [zFixedValues] using hz p hp
  · intro q hq
    rw [hdrain] at hq
    obtain ⟨p, hp, rfl⟩ := List.mem_map.mp hq
    simp [readback, zFixedValues]

/-- Witness for C9: one `z = 0` particle through the TOPAS codec with `z`
declared constant. -/
theorem c9_fixed_z_witness :
    topasCodec ∈ allCodecs ∧
    (∀ p ∈ [sampleParticle], Particle.z p = 0) ∧
    [sampleParticle].length ≤ topasCodec.maxParticles ∧
    ∃ w',
      write_all (init_writer topasCodec zFixedValues) [sampleParticle] =
        .ok w' ∧
      (finalize_file w').header.fixed.zIsConstant = true ∧
      (finalize_file w').header.fixed.constantZ = 0 ∧
      (∀ p ∈ [sampleParticle],
        Particle.z p = (finalize_file w').header.fixed.constantZ) ∧
      ∀ q ∈ (drain (open_reader topasCodec (finalize_file w'))).1,
        Particle.z q = 0 :=
  ⟨by decide, by decide, by decide,
    c9_fixed_z topasCodec [sampleParticle] (by decide) (by decide)
      (by decide)⟩

end ParticleZoo
